import Mathlib

/-!
Verification of the Career-Fair state-synchronization core.

This file is a shallow embedding of the Python sources
`app_capgemini.py`, `app_schneider.py` and `utils.py` (both app files
duplicate the helpers `_norm`, `_ensure_schema`, `_key`,
`_apply_optimistic`, `_flush_to_disk`; only `app_capgemini.py` defines
`_three_way_merge`).

Modelling conventions:
* Text is a list of abstract characters `Ch`.  `Ch` models exactly the
  Unicode structure the sources consume through `unicodedata`: a case
  mapping (`toLowerCh`), NFKD decomposition (`nfkdCh`, where a
  precomposed accented letter decomposes into a base letter followed by
  a combining mark), the combining-mark predicate (`combiningCh`) and
  whitespace (`Ch.space`).
* A pandas DataFrame cell that can be NaN is an `Option`; the canonical
  table produced by `_ensure_schema` has `Option Str` text cells (a NaN
  in an existing text column survives `_ensure_schema`) and total `Bool`
  flag cells (`astype(bool)`).
* Nullable ("string"/"boolean" dtype) comparisons propagate NA
  (`neqNA`), three-valued logic is Kleene (`kand`, `knot`), and a
  boolean mask containing NA selects nothing at the NA positions
  (pandas treats NA as False in masks): `ktrue`.
* `Index.union` returns its first operand unchanged when the second is
  empty or equal to it, and the second when the first is empty; only
  otherwise does it build a combined index, keeping for each key the
  larger of the two multiplicities (`unionIdx`).  pandas sorts that
  general-case result; no theorem below depends on the union's order,
  so it is modelled in first-operand-then-extras order.
  `Index.reindex` first checks `self.equals(target)` and aligns
  positionally without error — duplicate labels included — and only
  otherwise raises "cannot reindex on an axis with duplicate labels"
  for a non-unique index (`reindexTbl`, where `none` is the raised
  error) or aligns a unique index by key lookup.
* `read_csv` dtype inference appears as a domain guard on `parseCsv`:
  a text column whose non-NA values all look numeric or all look
  boolean would be converted away from strings, leaving the
  string-cell table model, so the parse is modelled only on files
  where every text column defeats the inference (`none` otherwise);
  the guard's value classes over-approximate the convertible literals,
  so the model never claims a string round trip pandas would not
  perform.
* Wall-clock times (`time.time()`) are rationals; remote I/O
  (Dropbox download/upload, the shared-link CSV fetch) is an
  environment value fed to the state-transition functions.
-/

/-- Abstract character alphabet.  `lo n`/`up n` are the lower/upper case
forms of letter `n`; `loAcc n m`/`upAcc n m` are precomposed accented
letters whose NFKD decomposition is the base letter followed by the
combining mark `comb m`; `sym n` is any other non-letter, non-space
character (digits, punctuation), indexed by code point. -/
inductive Ch : Type where
  | lo (n : Nat)
  | up (n : Nat)
  | loAcc (n m : Nat)
  | upAcc (n m : Nat)
  | comb (m : Nat)
  | space
  | sym (n : Nat)
  deriving DecidableEq

/-- A Python string. -/
abbrev Str := List Ch

/-- Python `str.lower` on one character. -/
def toLowerCh : Ch → Ch
  | Ch.up n => Ch.lo n
  | Ch.upAcc n m => Ch.loAcc n m
  | c => c

/-- Whitespace test (Python `str.strip` / `str.split` boundary). -/
def isSpaceCh : Ch → Bool
  | Ch.space => true
  | _ => false

/-- `unicodedata.combining(ch) != 0`. -/
def combiningCh : Ch → Bool
  | Ch.comb _ => true
  | _ => false

/-- NFKD decomposition of one character
(`unicodedata.normalize("NFKD", ·)`). -/
def nfkdCh : Ch → Str
  | Ch.loAcc n m => [Ch.lo n, Ch.comb m]
  | Ch.upAcc n m => [Ch.up n, Ch.comb m]
  | c => [c]

/-- NFKD of a string. -/
def nfkdStr : Str → Str
  | [] => []
  | c :: s => nfkdCh c ++ nfkdStr s

/-- `"".join(ch for ch in s if not unicodedata.combining(ch))`. -/
def stripCombining (s : Str) : Str := s.filter (fun c => !combiningCh c)

/-- Python `str.lower`. -/
def pyLower (s : Str) : Str := s.map toLowerCh

/-- Drop trailing whitespace. -/
def dropTrail (s : Str) : Str := ((s.reverse).dropWhile isSpaceCh).reverse

/-- Python `str.strip()`: drop leading and trailing whitespace. -/
def pyStrip (s : Str) : Str := dropTrail (s.dropWhile isSpaceCh)

/-- `utils._norm`: strip, NFKD, drop combining marks (no lowering
in `utils.py`, unlike the apps' `_norm`). -/
def unorm (s : Str) : Str := stripCombining (nfkdStr (pyStrip s))

/-- The separator `"||"` used by every key function
(`'|'` is code point 124). -/
def sepKey : Str := [Ch.sym 124, Ch.sym 124]

/-- The apps' `_key` on one row's three text values:
`first.strip().lower() + "||" + last.strip().lower() + "||" + file.strip()`
(identical in `app_capgemini.py` and `app_schneider.py`).  Note: no
diacritic stripping, and the file part is not lowered. -/
def app_key_str (f l fi : Str) : Str :=
  pyLower (pyStrip f) ++ sepKey ++ pyLower (pyStrip l) ++ sepKey ++ pyStrip fi

/-- One name component of `utils._key_series` / `utils.update_flag`'s
target key: `_norm(x).lower().strip()`. -/
def utilsKeyName (s : Str) : Str := pyStrip (pyLower (unorm s))

/-- The file component of the utils key: `x.lower().strip()`
(no `_norm`). -/
def utilsKeyFile (s : Str) : Str := pyStrip (pyLower s)

/-- `utils._key_series` (also `update_flag`'s `target_key`) on one
row's three text values. -/
def utils_key_str (f l fi : Str) : Str :=
  utilsKeyName f ++ sepKey ++ utilsKeyName l ++ sepKey ++ utilsKeyFile fi

/-- Two characters differ at most by letter case. -/
def caseEq (c d : Ch) : Prop := toLowerCh c = toLowerCh d

/-- Two strings differ only by letter case and surrounding whitespace:
after stripping, they agree pointwise up to case. -/
def cwEq (a b : Str) : Prop := List.Forall₂ caseEq (pyStrip a) (pyStrip b)

/-- Canonical form of a string under diacritics, letter case and
surrounding whitespace. -/
def dcwCanon (s : Str) : Str := pyStrip (pyLower (stripCombining (nfkdStr s)))

/-- Two strings differ only by diacritics, letter case and surrounding
whitespace. -/
def dcwEq (a b : Str) : Prop := dcwCanon a = dcwCanon b

/-- Two strings differ only by surrounding whitespace. -/
def wsEq (a b : Str) : Prop := pyStrip a = pyStrip b

-- ------------------------------------------------------------------
-- String-normalization lemmas used by the key-stability claim.
-- ------------------------------------------------------------------

theorem nfkdStr_append (a b : Str) : nfkdStr (a ++ b) = nfkdStr a ++ nfkdStr b := by
  induction a with
  | nil => rfl
  | cons c s ih => simp [nfkdStr, ih]

/-- `lower ∘ stripCombining ∘ nfkd`, the character pipeline shared by
`utilsKeyName` and `dcwCanon`. -/
def normLow (s : Str) : Str := pyLower (stripCombining (nfkdStr s))

theorem normLow_append (a b : Str) : normLow (a ++ b) = normLow a ++ normLow b := by
  simp [normLow, nfkdStr_append, pyLower, stripCombining]

theorem normLow_space_pointwise (t : Str) (h : ∀ a ∈ t, isSpaceCh a = true) :
    ∀ a ∈ normLow t, isSpaceCh a = true := by
  induction t with
  | nil => simp [normLow, nfkdStr, stripCombining, pyLower]
  | cons c s ih =>
    have hc : c = Ch.space := by
      have := h c (by simp)
      cases c <;> simp [isSpaceCh] at this ⊢
    subst hc
    intro a ha
    have hrw : normLow (Ch.space :: s) = Ch.space :: normLow s := by
      simp [normLow, nfkdStr, nfkdCh, stripCombining, pyLower, combiningCh, toLowerCh]
    rw [hrw] at ha
    rcases List.mem_cons.mp ha with h1 | h1
    · simp [h1, isSpaceCh]
    · exact ih (fun a ha2 => h a (List.mem_cons_of_mem _ ha2)) a h1

theorem dropWhile_append_all {p : Ch → Bool} {pre y : Str}
    (h : ∀ a ∈ pre, p a = true) :
    List.dropWhile p (pre ++ y) = List.dropWhile p y := by
  induction pre with
  | nil => rfl
  | cons c s ih =>
    have hc : p c = true := h c (by simp)
    simp only [List.cons_append, List.dropWhile_cons_of_pos hc]
    exact ih (fun a ha => h a (List.mem_cons_of_mem _ ha))

theorem dropWhile_eq_nil_all {p : Ch → Bool} {t : Str}
    (h : ∀ a ∈ t, p a = true) : List.dropWhile p t = [] := by
  have := dropWhile_append_all (p := p) (y := ([] : Str)) h
  simpa using this

theorem dropTrail_append_all {t x : Str}
    (h : ∀ a ∈ t, isSpaceCh a = true) : dropTrail (x ++ t) = dropTrail x := by
  unfold dropTrail
  rw [List.reverse_append]
  rw [dropWhile_append_all (fun a ha => h a (List.mem_reverse.mp ha))]

theorem pyStrip_append_trailing {x t : Str}
    (h : ∀ a ∈ t, isSpaceCh a = true) : pyStrip (x ++ t) = pyStrip x := by
  unfold pyStrip
  rcases hx : List.dropWhile isSpaceCh x with _ | ⟨c, cs⟩
  · have hall : ∀ a ∈ x, isSpaceCh a = true := List.dropWhile_eq_nil_iff.mp hx
    rw [dropWhile_append_all hall, dropWhile_eq_nil_all h]
  · have : List.dropWhile isSpaceCh (x ++ t) = (c :: cs) ++ t := by
      rw [List.dropWhile_append]
      simp [hx]
    rw [this, dropTrail_append_all h]

theorem pyStrip_append_leading {t x : Str}
    (h : ∀ a ∈ t, isSpaceCh a = true) : pyStrip (t ++ x) = pyStrip x := by
  unfold pyStrip
  rw [dropWhile_append_all h]

theorem dropTrail_decomp (s : Str) :
    ∃ t, s = dropTrail s ++ t ∧ (∀ a ∈ t, isSpaceCh a = true) := by
  refine ⟨(List.takeWhile isSpaceCh s.reverse).reverse, ?_, ?_⟩
  · unfold dropTrail
    conv_lhs => rw [← List.reverse_reverse s,
      ← List.takeWhile_append_dropWhile (p := isSpaceCh) (l := s.reverse)]
    rw [List.reverse_append]
  · intro a ha
    exact List.mem_takeWhile_imp (List.mem_reverse.mp ha)

theorem pyStrip_normLow_dropLead (s : Str) :
    pyStrip (normLow (List.dropWhile isSpaceCh s)) = pyStrip (normLow s) := by
  conv_rhs => rw [← List.takeWhile_append_dropWhile (p := isSpaceCh) (l := s)]
  rw [normLow_append]
  rw [pyStrip_append_leading]
  exact normLow_space_pointwise _ (fun a ha => List.mem_takeWhile_imp ha)

theorem pyStrip_normLow_dropTrail (s : Str) :
    pyStrip (normLow (dropTrail s)) = pyStrip (normLow s) := by
  obtain ⟨t, hs, ht⟩ := dropTrail_decomp s
  conv_rhs => rw [hs]
  rw [normLow_append]
  rw [pyStrip_append_trailing]
  exact normLow_space_pointwise _ ht

/-- `utils._key_series`'s name component computes exactly the canonical
form of a string under diacritics, case and surrounding whitespace. -/
theorem utilsKeyName_eq_dcwCanon (s : Str) : utilsKeyName s = dcwCanon s := by
  have h1 : utilsKeyName s = pyStrip (normLow (dropTrail (s.dropWhile isSpaceCh))) := rfl
  rw [h1, pyStrip_normLow_dropTrail, pyStrip_normLow_dropLead]
  rfl

theorem forall2_caseEq_pyLower {a b : Str} (h : List.Forall₂ caseEq a b) :
    pyLower a = pyLower b := by
  induction h with
  | nil => rfl
  | cons hcd _ ih =>
    have hcd2 : toLowerCh _ = toLowerCh _ := hcd
    simp only [pyLower, List.map_cons] at ih ⊢
    rw [hcd2, ih]

theorem isSpaceCh_toLowerCh (c : Ch) : isSpaceCh (toLowerCh c) = isSpaceCh c := by
  cases c <;> rfl

theorem dropWhile_pyLower (s : Str) :
    List.dropWhile isSpaceCh (pyLower s) = pyLower (List.dropWhile isSpaceCh s) := by
  induction s with
  | nil => rfl
  | cons c cs ih =>
    by_cases hc : isSpaceCh c = true
    · simp only [pyLower, List.map_cons]
      rw [List.dropWhile_cons_of_pos (by rw [isSpaceCh_toLowerCh]; exact hc),
        List.dropWhile_cons_of_pos hc]
      exact ih
    · simp only [pyLower, List.map_cons]
      rw [List.dropWhile_cons_of_neg (by rw [isSpaceCh_toLowerCh]; exact hc),
        List.dropWhile_cons_of_neg hc]
      rfl

theorem pyStrip_pyLower (s : Str) : pyStrip (pyLower s) = pyLower (pyStrip s) := by
  unfold pyStrip dropTrail
  rw [dropWhile_pyLower]
  rw [show (pyLower (s.dropWhile isSpaceCh)).reverse
        = pyLower ((s.dropWhile isSpaceCh).reverse) from by
    simp [pyLower, List.map_reverse]]
  rw [dropWhile_pyLower]
  simp [pyLower, List.map_reverse]

-- ------------------------------------------------------------------
-- Data model: canonical columns, records, raw tables, `_ensure_schema`.
-- ------------------------------------------------------------------

/-- The three canonical text columns (`TEXT_COLS`). -/
inductive TCol : Type where
  | first_name
  | last_name
  | file_name
  deriving DecidableEq

/-- The four canonical boolean flag columns (`BOOL_COLS`). -/
inductive BCol : Type where
  | seen
  | intend_view
  | cv_saved
  | contacted
  deriving DecidableEq

/-- One row of a canonical table (output of `_ensure_schema`): text
cells may be NaN (`none`), flag cells are strict booleans. -/
structure Rec where
  first_name : Option Str
  last_name : Option Str
  file_name : Option Str
  seen : Bool
  intend_view : Bool
  cv_saved : Bool
  contacted : Bool
  deriving DecidableEq

def textGet : TCol → Rec → Option Str
  | TCol.first_name, r => r.first_name
  | TCol.last_name, r => r.last_name
  | TCol.file_name, r => r.file_name

def flagGet : BCol → Rec → Bool
  | BCol.seen, r => r.seen
  | BCol.intend_view, r => r.intend_view
  | BCol.cv_saved, r => r.cv_saved
  | BCol.contacted, r => r.contacted

/-- One row of an arbitrary ingested table.  Every cell is its textual
content (`astype(str)` view for flag cells) or NaN (`none`); a slot is
meaningful only when the corresponding column is present in the table. -/
structure RawRow where
  first_name : Option Str
  last_name : Option Str
  file_name : Option Str
  seen : Option Str
  intend_view : Option Str
  cv_saved : Option Str
  contacted : Option Str
  deriving DecidableEq

/-- An arbitrary ingested table: which canonical columns are present,
and the rows.  Non-canonical extra columns are not tracked: the final
`df[[*TEXT_COLS, *BOOL_COLS]]` projection in `_ensure_schema` drops
them without reading them. -/
structure RawTable where
  has_first : Bool
  has_last : Bool
  has_file : Bool
  has_seen : Bool
  has_intend : Bool
  has_cv : Bool
  has_contacted : Bool
  rows : List RawRow
  deriving DecidableEq

/-- Lower-case word helper: letters are indexed a=0 … z=25. -/
def lw (ns : List Nat) : Str := ns.map Ch.lo

/-- `"true"`. -/
def s_true : Str := lw [19, 17, 20, 4]
/-- `"1"` (`'1'` is code point 49). -/
def s_one : Str := [Ch.sym 49]
/-- `"yes"`. -/
def s_yes : Str := lw [24, 4, 18]
/-- `"y"`. -/
def s_y : Str := lw [24]
/-- `"True"`, Python's `str(True)`. -/
def s_TrueStr : Str := Ch.up 19 :: lw [17, 20, 4]
/-- `"False"`, Python's `str(False)`. -/
def s_FalseStr : Str := Ch.up 5 :: lw [0, 11, 18, 4]
/-- `str(b)` for a Python bool. -/
def strOfBool (b : Bool) : Str := if b then s_TrueStr else s_FalseStr

/-- `_ensure_schema`'s coercion of one flag cell:
`astype(str).str.strip().str.lower()` then
`map({"true"/"1"/"yes"/"y" -> True, "false"/"0"/"no"/"n" -> False})`
then `fillna(False)`: every string outside the truthy set ends up
`False` (explicitly-false strings via the map, everything else via
`fillna`), and NaN stringifies to `"nan"`, which is also not truthy. -/
def coerceCell : Option Str → Bool
  | none => false
  | some s =>
    let t := pyLower (pyStrip s)
    decide (t = s_true ∨ t = s_one ∨ t = s_yes ∨ t = s_y)

/-- `_ensure_schema` (identical in both app files): guarantee the three
text columns (absent text column becomes `""` cells; NaN cells of a
present text column are kept), coerce the four flag columns (absent
column becomes `False`), and project onto the canonical column order. -/
def ensure_schema (d : RawTable) : List Rec :=
  d.rows.map (fun r =>
    { first_name := if d.has_first then r.first_name else some []
      last_name := if d.has_last then r.last_name else some []
      file_name := if d.has_file then r.file_name else some []
      seen := if d.has_seen then coerceCell r.seen else false
      intend_view := if d.has_intend then coerceCell r.intend_view else false
      cv_saved := if d.has_cv then coerceCell r.cv_saved else false
      contacted := if d.has_contacted then coerceCell r.contacted else false })

/-- How a canonical table presents itself when fed back into pandas
code expecting an arbitrary table: all canonical columns present, text
cells unchanged, flag cells shown through `astype(str)` as
`"True"`/`"False"`. -/
def toRaw (tbl : List Rec) : RawTable :=
  { has_first := true, has_last := true, has_file := true,
    has_seen := true, has_intend := true, has_cv := true, has_contacted := true,
    rows := tbl.map (fun r =>
      { first_name := r.first_name
        last_name := r.last_name
        file_name := r.file_name
        seen := some (strOfBool r.seen)
        intend_view := some (strOfBool r.intend_view)
        cv_saved := some (strOfBool r.cv_saved)
        contacted := some (strOfBool r.contacted) }) }

theorem coerceCell_strOfBool (b : Bool) : coerceCell (some (strOfBool b)) = b := by
  cases b <;> rfl

/-- `_ensure_schema` is the identity on canonical tables. -/
theorem ensure_schema_toRaw (tbl : List Rec) : ensure_schema (toRaw tbl) = tbl := by
  induction tbl with
  | nil => rfl
  | cons r rs ih =>
    simp only [ensure_schema, toRaw, List.map_cons] at ih ⊢
    rw [ih]
    simp [coerceCell_strOfBool]

-- ------------------------------------------------------------------
-- Record keys on canonical rows.
-- ------------------------------------------------------------------

/-- The apps' `_key` on one canonical row (`fillna("")` turns a NaN
text cell into `""` before normalization). -/
def key_row (r : Rec) : Str :=
  app_key_str (r.first_name.getD []) (r.last_name.getD []) (r.file_name.getD [])

/-- `utils._key_series` on one canonical row. -/
def key_series (r : Rec) : Str :=
  utils_key_str (r.first_name.getD []) (r.last_name.getD []) (r.file_name.getD [])

-- ------------------------------------------------------------------
-- Three-way merge (`app_capgemini._three_way_merge`).
-- ------------------------------------------------------------------

/-- Kleene conjunction on nullable booleans (pandas "boolean" dtype
`&`). -/
def kand : Option Bool → Option Bool → Option Bool
  | some false, _ => some false
  | _, some false => some false
  | some true, some true => some true
  | _, _ => none

/-- Kleene negation (pandas `~`). -/
def knot : Option Bool → Option Bool := Option.map not

/-- A nullable-boolean mask selects a position iff the value there is
`True`; pandas treats NA in a boolean mask as False. -/
def ktrue (x : Option Bool) : Bool := x = some true

/-- Nullable inequality `!=`: NA if either operand is NA. -/
def neqNA {α : Type} [DecidableEq α] : Option α → Option α → Option Bool
  | some x, some y => some (decide ¬ (x = y))
  | _, _ => none

/-- Change detection for a flag column:
`(o != b) & ~(o.isna() & b.isna())` (the `isna` terms are plain
booleans, so the right conjunct is never NA). -/
def changedB (o b : Option Bool) : Option Bool :=
  kand (neqNA o b) (some (!(o.isNone && b.isNone)))

/-- Merged value of one text cell: start from `theirs`, overwrite with
`ours` where only ours changed, with `theirs` where only theirs changed
(a no-op), with `ours` where both changed ("ours wins"), then
`fillna("")`. -/
def mergeTextVal (vB vO vT : Option Str) : Str :=
  let chO := neqNA vO vB
  let chT := neqNA vT vB
  let v1 := if ktrue (kand chO (knot chT)) then vO else vT
  let v2 := if ktrue (kand chO chT) then vO else v1
  v2.getD []

/-- Whether a text cell is a both-sides-changed conflict
(the mask `both` of the text loop). -/
def bothTextVal (vB vO vT : Option Str) : Bool :=
  ktrue (kand (neqNA vO vB) (neqNA vT vB))

/-- Merged value of one flag cell: start from `theirs`, overwrite with
`ours` where only ours changed, OR the two sides where both changed,
then `fillna(False)`. -/
def mergeBoolVal (vB vO vT : Option Bool) : Bool :=
  let chO := changedB vO vB
  let chT := changedB vT vB
  let v1 := if ktrue (kand chO (knot chT)) then vO else vT
  let v2 := if ktrue (kand chO chT)
    then some (vO.getD false || vT.getD false) else v1
  v2.getD false

/-- `Series.find` of the (unique, when keys are duplicate-free) row
with the given key. -/
def rowAt (tbl : List Rec) (k : Str) : Option Rec :=
  tbl.find? (fun r => decide (key_row r = k))

/-- Pairwise `Index.union`: pandas returns `self` unchanged when
`other` is empty or equal to `self`, and `other` when `self` is empty;
only otherwise does it build a combined index, keeping for each key
the larger of the two multiplicities (`union_with_duplicates` when an
operand is non-unique).  pandas sorts that general-case result; no
theorem below depends on the union's order, so it is modelled in
first-operand-then-extras order (`b.diff a` removes one occurrence per
occurrence in `a`, leaving exactly `b`'s multiplicity surplus). -/
def unionIdx (a b : List Str) : List Str :=
  if b = [] ∨ a = b then a
  else if a = [] then b
  else a ++ b.diff a

/-- The key union `B.index.union(O.index).union(T.index)`. -/
def keyUnion (kb ko kt : List Str) : List Str :=
  unionIdx (unionIdx kb ko) kt

/-- `DataFrame.reindex` of a keyed table onto the key union, as the
per-label row list (`none` marks a reindex-introduced all-NaN row).
`Index.reindex` first checks `self.equals(target)`: an equal index is
kept unchanged, duplicate labels included, so rows align positionally;
only otherwise does a non-unique index raise "cannot reindex on an
axis with duplicate labels" (modelled as `none` for the whole call),
while a unique index aligns by key lookup. -/
def reindexTbl (tbl : List Rec) (u : List Str) : Option (List (Option Rec)) :=
  if tbl.map key_row = u then some (tbl.map some)
  else if (tbl.map key_row).Nodup then some (u.map (fun k => rowAt tbl k))
  else none

/-- The merged row built from three aligned (possibly reindex-NaN)
rows of one label: each text column through `mergeTextVal` (so never
NaN in the output), each flag column through `mergeBoolVal`. -/
def mergedRowCells (rb ro rt : Option Rec) : Rec :=
  { first_name := some (mergeTextVal (rb.bind (textGet TCol.first_name))
      (ro.bind (textGet TCol.first_name)) (rt.bind (textGet TCol.first_name)))
    last_name := some (mergeTextVal (rb.bind (textGet TCol.last_name))
      (ro.bind (textGet TCol.last_name)) (rt.bind (textGet TCol.last_name)))
    file_name := some (mergeTextVal (rb.bind (textGet TCol.file_name))
      (ro.bind (textGet TCol.file_name)) (rt.bind (textGet TCol.file_name)))
    seen := mergeBoolVal (rb.map (flagGet BCol.seen))
      (ro.map (flagGet BCol.seen)) (rt.map (flagGet BCol.seen))
    intend_view := mergeBoolVal (rb.map (flagGet BCol.intend_view))
      (ro.map (flagGet BCol.intend_view)) (rt.map (flagGet BCol.intend_view))
    cv_saved := mergeBoolVal (rb.map (flagGet BCol.cv_saved))
      (ro.map (flagGet BCol.cv_saved)) (rt.map (flagGet BCol.cv_saved))
    contacted := mergeBoolVal (rb.map (flagGet BCol.contacted))
      (ro.map (flagGet BCol.contacted)) (rt.map (flagGet BCol.contacted)) }

/-- The merged row of key `k` when the tables align by key lookup (the
duplicate-free case): a key absent from a table contributes NA
cells. -/
def mergedRow (b o t : List Rec) (k : Str) : Rec :=
  mergedRowCells (rowAt b k) (rowAt o k) (rowAt t k)

/-- The both-changed mask of text column `c` on three aligned rows. -/
def bothTextAt (c : TCol) (rb ro rt : Option Rec) : Bool :=
  bothTextVal (rb.bind (textGet c)) (ro.bind (textGet c)) (rt.bind (textGet c))

/-- The both-changed mask of text column `c` at key `k` (by-key
form). -/
def textBoth (b o t : List Rec) (c : TCol) (k : Str) : Bool :=
  bothTextAt c (rowAt b k) (rowAt o k) (rowAt t k)

/-- The conflict list over the aligned tables: the text loop appends,
column-major, one entry per label of the both-changed mask; the flag
loop appends nothing.  A source entry is the string `f"{c}@{idx}"`;
it is modelled as the pair `(c, idx)`. -/
def conflictsForAligned (u : List Str) (B O T : List (Option Rec)) :
    List (TCol × Str) :=
  (([TCol.first_name, TCol.last_name, TCol.file_name]).map (fun c =>
    ((u.zip (B.zip (O.zip T))).filter
      (fun p => bothTextAt c p.2.1 p.2.2.1 p.2.2.2)).map
        (fun p => (c, p.1)))).flatten

/-- The conflict list in by-key form — what `conflictsForAligned`
computes when all three tables reindex by key lookup. -/
def conflictsFor (b o t : List Rec) (u : List Str) : List (TCol × Str) :=
  (([TCol.first_name, TCol.last_name, TCol.file_name]).map (fun c =>
    (u.filter (fun k => textBoth b o t c k)).map (fun k => (c, k)))).flatten

/-- `app_capgemini._three_way_merge`: index the three tables by key,
take the key union, reindex each table onto it (`none` exactly when a
duplicate-keyed table's index differs from the union — the raised
ValueError), then resolve the aligned rows positionally: text columns
ours-wins-on-double-change with a conflict entry, flag columns
OR-on-double-change with no conflict entry. -/
def three_way_merge (b o t : List Rec) :
    Option (List Rec × List (TCol × Str)) :=
  match reindexTbl b (keyUnion (b.map key_row) (o.map key_row) (t.map key_row)),
      reindexTbl o (keyUnion (b.map key_row) (o.map key_row) (t.map key_row)),
      reindexTbl t (keyUnion (b.map key_row) (o.map key_row) (t.map key_row)) with
  | some B, some O, some T =>
    some ((B.zip (O.zip T)).map (fun p => mergedRowCells p.1 p.2.1 p.2.2),
      conflictsForAligned
        (keyUnion (b.map key_row) (o.map key_row) (t.map key_row)) B O T)
  | _, _, _ => none

-- ------------------------------------------------------------------
-- CSV persistence (`write_state_df` / `fetch_state_df`).
-- ------------------------------------------------------------------

/-- Header cell `"first_name"` (`'_'` is code point 95). -/
def h_first : Str := lw [5, 8, 17, 18, 19] ++ [Ch.sym 95] ++ lw [13, 0, 12, 4]
/-- Header cell `"last_name"`. -/
def h_last : Str := lw [11, 0, 18, 19] ++ [Ch.sym 95] ++ lw [13, 0, 12, 4]
/-- Header cell `"file_name"`. -/
def h_file : Str := lw [5, 8, 11, 4] ++ [Ch.sym 95] ++ lw [13, 0, 12, 4]
/-- Header cell `"seen"`. -/
def h_seen : Str := lw [18, 4, 4, 13]
/-- Header cell `"intend_view"`. -/
def h_intend : Str := lw [8, 13, 19, 4, 13, 3] ++ [Ch.sym 95] ++ lw [21, 8, 4, 22]
/-- Header cell `"cv_saved"`. -/
def h_cv : Str := lw [2, 21] ++ [Ch.sym 95] ++ lw [18, 0, 21, 4, 3]
/-- Header cell `"contacted"`. -/
def h_contacted : Str := lw [2, 14, 13, 19, 0, 2, 19, 4, 3]

/-- The canonical header row written by `to_csv`. -/
def csvHeader : List Str :=
  [h_first, h_last, h_file, h_seen, h_intend, h_cv, h_contacted]

/-- A flag serialized `astype(int)` then written by `to_csv`
(`'0'` is code point 48, `'1'` is 49). -/
def b01 (x : Bool) : Str := if x then [Ch.sym 49] else [Ch.sym 48]

/-- The seven fields `to_csv` writes for one canonical row (a NaN text
cell is written as an empty field).  The delimited-text quoting
mechanics are abstracted to the field level: a serialized file is a
list of rows of field strings. -/
def rowFields (r : Rec) : List Str :=
  [r.first_name.getD [], r.last_name.getD [], r.file_name.getD [],
   b01 r.seen, b01 r.intend_view, b01 r.cv_saved, b01 r.contacted]

/-- `write_state_df`'s payload (identical serialization in
`app_capgemini._flush_to_disk`): `_ensure_schema`, flags as 0/1,
`to_csv` with header. -/
def write_state_csv (tbl : List Rec) : List (List Str) :=
  csvHeader :: (ensure_schema (toRaw tbl)).map rowFields

/-- The default NA tokens of `pandas.read_csv`: a field equal to one of
these parses as NaN.  Letters are `lo`/`up` by index (a=0 … z=25);
`'#'` 35, `'-'` 45, `'.'` 46, `'/'` 47, `'0'` 48, `'1'` 49, `'<'` 60,
`'>'` 62. -/
def naTokens : List Str :=
  [ [],
    [Ch.sym 35, Ch.up 13, Ch.sym 47, Ch.up 0],
    [Ch.sym 35, Ch.up 13, Ch.sym 47, Ch.up 0, Ch.space, Ch.up 13, Ch.sym 47, Ch.up 0],
    [Ch.sym 35, Ch.up 13, Ch.up 0],
    [Ch.sym 45, Ch.sym 49, Ch.sym 46, Ch.sym 35, Ch.up 8, Ch.up 13, Ch.up 3],
    [Ch.sym 45, Ch.sym 49, Ch.sym 46, Ch.sym 35, Ch.up 16, Ch.up 13, Ch.up 0, Ch.up 13],
    [Ch.sym 45, Ch.up 13, Ch.lo 0, Ch.up 13],
    [Ch.sym 45, Ch.lo 13, Ch.lo 0, Ch.lo 13],
    [Ch.sym 49, Ch.sym 46, Ch.sym 35, Ch.up 8, Ch.up 13, Ch.up 3],
    [Ch.sym 49, Ch.sym 46, Ch.sym 35, Ch.up 16, Ch.up 13, Ch.up 0, Ch.up 13],
    [Ch.sym 60, Ch.up 13, Ch.up 0, Ch.sym 62],
    [Ch.up 13, Ch.sym 47, Ch.up 0],
    [Ch.up 13, Ch.up 0],
    [Ch.up 13, Ch.up 20, Ch.up 11, Ch.up 11],
    [Ch.up 13, Ch.lo 0, Ch.up 13],
    [Ch.up 13, Ch.lo 14, Ch.lo 13, Ch.lo 4],
    [Ch.lo 13, Ch.sym 47, Ch.lo 0],
    [Ch.lo 13, Ch.lo 0, Ch.lo 13],
    [Ch.lo 13, Ch.lo 20, Ch.lo 11, Ch.lo 11] ]

/-- `read_csv`'s NA mapping of one field. -/
def toNA (s : Str) : Option Str := if s ∈ naTokens then none else some s

/-- The cell of column `name` in data row `r` under header `hd`
(NaN when the row is short). -/
def cellAt (hd : List Str) (r : List Str) (name : Str) : Option Str :=
  match hd.findIdx? (fun h => decide (h = name)) with
  | none => none
  | some i => toNA ((r.get? i).getD [])

/-- Digit characters `'0'`-`'9'` (code points 48-57). -/
def isDigitCh : Ch → Bool
  | Ch.sym n => decide (48 ≤ n ∧ n ≤ 57)
  | _ => false

/-- Characters that can appear in an int/float literal: digits, `'+'`
(43), `'-'` (45), `'.'` (46), and the exponent letter `e`/`E`. -/
def numericLikeCh (c : Ch) : Bool :=
  isDigitCh c ||
    (match c with
     | Ch.sym n => decide (n = 43 ∨ n = 45 ∨ n = 46)
     | Ch.lo n => decide (n = 4)
     | Ch.up n => decide (n = 4)
     | _ => false)

/-- The infinity literals accepted by the C parser's float conversion,
lower-cased (`inf`, `infinity`, signed forms). -/
def infToks : List Str :=
  [ lw [8, 13, 5],
    lw [8, 13, 5, 8, 13, 8, 19, 24],
    Ch.sym 45 :: lw [8, 13, 5],
    Ch.sym 43 :: lw [8, 13, 5],
    Ch.sym 45 :: lw [8, 13, 5, 8, 13, 8, 19, 24],
    Ch.sym 43 :: lw [8, 13, 5, 8, 13, 8, 19, 24] ]

/-- Whether a field could be converted to an int/float by `read_csv`'s
dtype inference.  An over-approximation: every convertible numeric
literal is made of `numericLikeCh` characters or is an infinity form,
while some flagged strings (e.g. `"-"`, `"1.2.3"`) still fail the
conversion and stay strings — the parse guard below errs toward
refusing such columns, never toward keeping a column pandas would
convert. -/
def isNumLike (s : Str) : Bool :=
  (!s.isEmpty && s.all numericLikeCh) || decide (pyLower s ∈ infToks)

/-- The boolean literals `read_csv`'s dtype inference converts:
`TRUE`/`True`/`true`/`FALSE`/`False`/`false`. -/
def boolToks : List Str :=
  [ [Ch.up 19, Ch.up 17, Ch.up 20, Ch.up 4],
    s_TrueStr, s_true,
    [Ch.up 5, Ch.up 0, Ch.up 11, Ch.up 18, Ch.up 4],
    s_FalseStr,
    Ch.lo 5 :: lw [0, 11, 18, 4] ]

/-- Whether a field is one of the convertible boolean literals. -/
def isBoolTok (s : Str) : Bool := decide (s ∈ boolToks)

/-- Whether dtype inference would convert a parsed column away from
strings: it holds at least one non-NA value and all of them look
numeric, or all of them look boolean (one non-conforming value keeps
the whole column as strings). -/
def colConvertible (cells : List (Option Str)) : Bool :=
  !(cells.filterMap id).isEmpty &&
    ((cells.filterMap id).all isNumLike || (cells.filterMap id).all isBoolTok)

/-- The string-level parse of a header row plus data rows: the header
determines which canonical columns are present and where; each data
field is NA-mapped. -/
def parseRaw (hd : List Str) (rs : List (List Str)) : RawTable :=
  { has_first := decide (h_first ∈ hd)
    has_last := decide (h_last ∈ hd)
    has_file := decide (h_file ∈ hd)
    has_seen := decide (h_seen ∈ hd)
    has_intend := decide (h_intend ∈ hd)
    has_cv := decide (h_cv ∈ hd)
    has_contacted := decide (h_contacted ∈ hd)
    rows := rs.map (fun r =>
      { first_name := cellAt hd r h_first
        last_name := cellAt hd r h_last
        file_name := cellAt hd r h_file
        seen := cellAt hd r h_seen
        intend_view := cellAt hd r h_intend
        cv_saved := cellAt hd r h_cv
        contacted := cellAt hd r h_contacted }) }

/-- Whether every text column of a parsed table defeats dtype
inference, i.e. keeps at least one value that is neither numeric-like
nor a boolean literal (or has no values at all), so it stays a string
column. -/
def textColsStr (d : RawTable) : Bool :=
  !(colConvertible (d.rows.map (fun r => r.first_name)))
    && !(colConvertible (d.rows.map (fun r => r.last_name)))
    && !(colConvertible (d.rows.map (fun r => r.file_name)))

/-- `pd.read_csv` on a serialized file, to the raw-table level.  Dtype
inference on the text columns appears as a domain guard: when a text
column's non-NA values would all convert to numbers or booleans, the
parsed frame holds non-string values the string-cell table model
cannot represent, so the model is defined (`some`) only on files whose
text columns all stay strings.  The flag columns need no guard: they
are consumed through `_ensure_schema`'s `astype(str)`, and for the
`0`/`1` fields the serializer writes, `str()` of the inferred integer
is the raw field again. -/
def parseCsv (rows : List (List Str)) : Option RawTable :=
  match rows with
  | [] => some (RawTable.mk false false false false false false false [])
  | hd :: rs =>
    if textColsStr (parseRaw hd rs) then some (parseRaw hd rs) else none

-- ------------------------------------------------------------------
-- Flush (`_flush_to_disk`) in both variants, and the save policies.
-- ------------------------------------------------------------------

/-- Result of one remote fetch attempt. -/
inductive FetchRes : Type where
  | ok (t : List Rec)
  | fail
  deriving DecidableEq

/-- The remote environment one capgemini flush sees: the Dropbox API
download (`_download_current_df_from_dbx`), the shared-link CSV
fallback (`fetch_state_df`), and whether the upload
(`_upload_with_auto_refresh`, including its one
refresh-and-retry) succeeds. -/
structure CapEnv : Type where
  dbxFetch : FetchRes
  csvFetch : FetchRes
  uploadOk : Bool
  deriving DecidableEq

/-- The remote table a capgemini flush merges against: the API
download, or the read-only CSV on failure. -/
def fetchedRemote (env : CapEnv) : Option (List Rec) :=
  match env.dbxFetch with
  | FetchRes.ok t => some t
  | FetchRes.fail =>
    match env.csvFetch with
    | FetchRes.ok t => some t
    | FetchRes.fail => none

/-- Per-session state of the capgemini variant that
`_flush_to_disk` touches. -/
structure CapState : Type where
  df : List Rec
  base : Option (List Rec)
  last_batch_write : ℚ
  buffer_dirty : Bool
  deriving DecidableEq

/-- Observable outcome of one capgemini flush. -/
inductive FlushOut : Type where
  | errFetch
  | errMerge
  | wrote (payload : List (List Str)) (ok : Bool)
  deriving DecidableEq

/-- `app_capgemini._flush_to_disk`: fetch remote (API, then CSV
fallback; both failing aborts with no state change), default the base
snapshot to the remote when absent, three-way merge (an exception —
duplicate keys — aborts with no state change), serialize and upload
the merged table, then unconditionally stamp `last_batch_write` and
clear `buffer_dirty`; only on upload success replace `df` with the
merged table and re-baseline (`_snapshot_base` stores
`_ensure_schema(df)`). -/
def capFlush (env : CapEnv) (now : ℚ) (s : CapState) : CapState × FlushOut :=
  match fetchedRemote env with
  | none => (s, FlushOut.errFetch)
  | some remote =>
    match three_way_merge (s.base.getD remote) s.df remote with
    | none => (s, FlushOut.errMerge)
    | some (m, _conflicts) =>
      let payload := write_state_csv m
      let s1 : CapState := { s with last_batch_write := now, buffer_dirty := false }
      if env.uploadOk then
        ({ s1 with df := m, base := some (ensure_schema (toRaw m)) },
          FlushOut.wrote payload true)
      else (s1, FlushOut.wrote payload false)

/-- Per-session state of the schneider variant that
`_flush_to_disk` touches.  There is no base snapshot in this
variant. -/
structure SchState : Type where
  df : List Rec
  buffer_dirty : Bool
  last_batch_write : ℚ
  last_save_ts : ℚ
  deriving DecidableEq

/-- `app_schneider.write_state_df`: refuse when Dropbox is not
configured, otherwise serialize the given table and upload it.
Returns (uploaded payload, success). -/
def write_state_df (dbxConfigured uploadOk : Bool) (tbl : List Rec) :
    Option (List (List Str)) × Bool :=
  if dbxConfigured then (some (write_state_csv tbl), uploadOk) else (none, false)

/-- `app_schneider._flush_to_disk`: write the CURRENT working table
(no remote fetch, no merge, no base snapshot), then unconditionally
stamp `last_batch_write` and clear `buffer_dirty`; success/failure only
selects the toast/error message. -/
def schFlush (dbxConfigured uploadOk : Bool) (now : ℚ) (s : SchState) :
    SchState × (Option (List (List Str)) × Bool) :=
  ({ s with last_batch_write := now, buffer_dirty := false },
    write_state_df dbxConfigured uploadOk s.df)

/-- `AUTOSAVE_DEBOUNCE_SEC = 0.35`. -/
def AUTOSAVE_DEBOUNCE_SEC : ℚ := 7 / 20
/-- `BATCH_SAVE_INTERVAL_SEC = 30`. -/
def BATCH_SAVE_INTERVAL_SEC : ℚ := 30

/-- The save-policy block of one schneider rerun (the code after the
editor is read): on a non-empty delta, flush debounced when a filter is
active, otherwise only mark `buffer_dirty`; then an explicit "Save now"
flush; then the periodic buffered flush when unfiltered, dirty and
`BATCH_SAVE_INTERVAL_SEC` elapsed.  Returns the new state and the
number of flush calls (the delta application to `df` is the
delta-applier's concern and does not touch these fields). -/
def schTick (dbxConfigured uploadOk filterActive deltaNonEmpty wantSave : Bool)
    (now : ℚ) (s : SchState) : SchState × Nat :=
  let step1 : SchState × Nat :=
    if deltaNonEmpty then
      if filterActive then
        if AUTOSAVE_DEBOUNCE_SEC ≤ now - s.last_save_ts then
          ({ (schFlush dbxConfigured uploadOk now s).1 with last_save_ts := now }, 1)
        else (s, 0)
      else ({ s with buffer_dirty := true }, 0)
    else (s, 0)
  let step2 : SchState × Nat :=
    if wantSave then ((schFlush dbxConfigured uploadOk now step1.1).1, step1.2 + 1)
    else step1
  if (!filterActive) && step2.1.buffer_dirty
      && decide (BATCH_SAVE_INTERVAL_SEC ≤ now - step2.1.last_batch_write) then
    ((schFlush dbxConfigured uploadOk now step2.1).1, step2.2 + 1)
  else step2

/-- Capgemini session state the auto-save block touches. -/
structure CapTickState : Type where
  cap : CapState
  last_auto_save : ℚ
  deriving DecidableEq

/-- The save block of one capgemini rerun: an explicit "Save now"
flush, then an unconditional periodic flush as soon as 5 seconds have
passed since the last auto-save — with no dirty-flag check and no
filter check; the `deltaNonEmpty` argument is deliberately unread,
because the capgemini save policy never consults the delta.  Returns
the new state and the number of flush calls. -/
def capTick (env : CapEnv) (deltaNonEmpty wantSave : Bool) (now : ℚ)
    (s : CapTickState) : CapTickState × Nat :=
  let step1 : CapState × Nat :=
    if wantSave then ((capFlush env now s.cap).1, 1) else (s.cap, 0)
  if decide ((5 : ℚ) ≤ now - s.last_auto_save) then
    ({ cap := (capFlush env now step1.1).1, last_auto_save := now }, step1.2 + 1)
  else ({ cap := step1.1, last_auto_save := s.last_auto_save }, step1.2)

-- ------------------------------------------------------------------
-- `utils.update_flag`.
-- ------------------------------------------------------------------

/-- Set one flag column on a row. -/
def setFlag (d : BCol) (v : Bool) (r : Rec) : Rec :=
  match d with
  | BCol.seen => { r with seen := v }
  | BCol.intend_view => { r with intend_view := v }
  | BCol.cv_saved => { r with cv_saved := v }
  | BCol.contacted => { r with contacted := v }

/-- The fabricated row of `update_flag`: the raw text arguments and all
four flags `False`. -/
def newRow (f l fi : Str) : Rec :=
  { first_name := some f, last_name := some l, file_name := some fi,
    seen := false, intend_view := false, cv_saved := false, contacted := false }

/-- `utils.update_flag` on a canonical state table (the function's
column-guarantee preamble is the identity there): compute the target
key (same normalization as `_key_series`), set the flag on every row
whose key matches, and if none matches append a fresh row with all
flags `False` and set the flag on it.  The `save_cb` side effect is
the caller's upload and does not change the returned table. -/
def update_flag (tbl : List Rec) (f l fi : Str) (d : BCol) (v : Bool) :
    List Rec :=
  let tk := utils_key_str f l fi
  if tbl.any (fun r => decide (key_series r = tk)) then
    tbl.map (fun r => if key_series r = tk then setFlag d v r else r)
  else tbl ++ [setFlag d v (newRow f l fi)]

-- ------------------------------------------------------------------
-- Merge lemmas.
-- ------------------------------------------------------------------

theorem mem_unionIdx {x : Str} {a b : List Str} :
    x ∈ unionIdx a b ↔ (x ∈ a ∨ x ∈ b) := by
  unfold unionIdx
  by_cases h1 : b = [] ∨ a = b
  · rw [if_pos h1]
    rcases h1 with h | h
    · subst h; simp
    · subst h; tauto
  · rw [if_neg h1]
    by_cases h2 : a = []
    · rw [if_pos h2]; subst h2; simp
    · rw [if_neg h2]
      simp only [List.mem_append]
      constructor
      · rintro (h | h)
        · exact Or.inl h
        · exact Or.inr ((List.diff_sublist b a).subset h)
      · rintro (h | h)
        · exact Or.inl h
        · by_cases ha : x ∈ a
          · exact Or.inl ha
          · exact Or.inr (List.mem_diff_of_mem h ha)

theorem unionIdx_eq {a b : List Str} (h : a = b) : unionIdx a b = a := by
  unfold unionIdx
  rw [if_pos (Or.inr h)]

theorem mem_keyUnion {x : Str} {kb ko kt : List Str} :
    x ∈ keyUnion kb ko kt ↔ (x ∈ kb ∨ x ∈ ko ∨ x ∈ kt) := by
  unfold keyUnion
  rw [mem_unionIdx, mem_unionIdx]
  tauto

theorem keyUnion_eq_left {kb ko kt : List Str} (h1 : kb = ko) (h2 : ko = kt) :
    keyUnion kb ko kt = kb := by
  unfold keyUnion
  rw [unionIdx_eq h1, unionIdx_eq (h1.trans h2)]

theorem rowAt_key_self {tbl : List Rec} {r : Rec}
    (hnd : (tbl.map key_row).Nodup) (hr : r ∈ tbl) :
    rowAt tbl (key_row r) = some r := by
  induction tbl with
  | nil => cases hr
  | cons a as ih =>
    rw [List.map_cons] at hnd
    have hnd2 := List.nodup_cons.mp hnd
    rcases List.mem_cons.mp hr with h1 | h1
    · subst h1
      exact List.find?_cons_of_pos _ (by simp)
    · have hne : key_row a ≠ key_row r := by
        intro he
        exact hnd2.1 (he ▸ List.mem_map_of_mem key_row h1)
      unfold rowAt
      rw [List.find?_cons_of_neg _ (by simpa using hne)]
      exact ih hnd2.2 h1

theorem textGet_mergedRow (b o t : List Rec) (k : Str) (c : TCol) :
    textGet c (mergedRow b o t k) =
      some (mergeTextVal ((rowAt b k).bind (textGet c))
        ((rowAt o k).bind (textGet c)) ((rowAt t k).bind (textGet c))) := by
  cases c <;> rfl

theorem flagGet_mergedRow (b o t : List Rec) (k : Str) (d : BCol) :
    flagGet d (mergedRow b o t k) =
      mergeBoolVal ((rowAt b k).map (flagGet d))
        ((rowAt o k).map (flagGet d)) ((rowAt t k).map (flagGet d)) := by
  cases d <;> rfl

theorem mergeTextVal_same (v : Str) :
    mergeTextVal (some v) (some v) (some v) = v := by
  simp [mergeTextVal, neqNA, kand, knot, ktrue]

theorem mergeBoolVal_same (x : Bool) :
    mergeBoolVal (some x) (some x) (some x) = x := by
  simp [mergeBoolVal, changedB, neqNA, kand, knot, ktrue]

theorem bothTextVal_same (v : Str) :
    bothTextVal (some v) (some v) (some v) = false := by
  simp [bothTextVal, neqNA, kand, ktrue]

theorem mergedRowCells_same {r : Rec} (htext : ∀ c : TCol, (textGet c r).isSome) :
    mergedRowCells (some r) (some r) (some r) = r := by
  obtain ⟨f, hf⟩ := Option.isSome_iff_exists.mp (htext TCol.first_name)
  obtain ⟨l, hl⟩ := Option.isSome_iff_exists.mp (htext TCol.last_name)
  obtain ⟨fi, hfi⟩ := Option.isSome_iff_exists.mp (htext TCol.file_name)
  rcases r with ⟨rf, rl, rfi, b1, b2, b3, b4⟩
  simp only [textGet] at hf hl hfi
  subst hf; subst hl; subst hfi
  simp [mergedRowCells, textGet, flagGet, mergeTextVal_same, mergeBoolVal_same]

theorem reindexTbl_eq {tbl : List Rec} {u : List Str}
    (h : tbl.map key_row = u) : reindexTbl tbl u = some (tbl.map some) := by
  unfold reindexTbl
  rw [if_pos h]

theorem reindexTbl_of_nodup {tbl : List Rec} {u : List Str}
    (h : (tbl.map key_row).Nodup) :
    reindexTbl tbl u = some (u.map (fun k => rowAt tbl k)) := by
  unfold reindexTbl
  by_cases he : tbl.map key_row = u
  · rw [if_pos he]
    subst he
    rw [List.map_map]
    refine congrArg some (List.map_congr_left ?_)
    intro r hr
    exact (rowAt_key_self h hr).symm
  · rw [if_neg he, if_pos h]

theorem aligned_eq_byKey (b o t : List Rec) (u : List Str) :
    ((u.map (fun k => rowAt b k)).zip ((u.map (fun k => rowAt o k)).zip
        (u.map (fun k => rowAt t k)))).map
      (fun p => mergedRowCells p.1 p.2.1 p.2.2)
    = u.map (fun k => mergedRow b o t k) := by
  induction u with
  | nil => rfl
  | cons k ks ih =>
    simp only [List.map_cons, List.zip_cons_cons]
    rw [ih]
    rfl

theorem zipFilter_byKey (c : TCol) (b o t : List Rec) (u : List Str) :
    ((u.zip ((u.map (fun k => rowAt b k)).zip ((u.map (fun k => rowAt o k)).zip
        (u.map (fun k => rowAt t k))))).filter
      (fun p => bothTextAt c p.2.1 p.2.2.1 p.2.2.2)).map
        (fun p => ((c, p.1) : TCol × Str))
    = (u.filter (fun k => textBoth b o t c k)).map (fun k => (c, k)) := by
  induction u with
  | nil => rfl
  | cons k ks ih =>
    simp only [List.map_cons, List.zip_cons_cons, List.filter_cons]
    by_cases hc : textBoth b o t c k = true
    · have hc2 : bothTextAt c (rowAt b k) (rowAt o k) (rowAt t k) = true := hc
      simp only [hc, hc2, if_true, List.map_cons, ih]
    · have hc2 : ¬ (bothTextAt c (rowAt b k) (rowAt o k) (rowAt t k) = true) := hc
      simp only [if_neg hc, if_neg hc2, ih]

theorem conflictsAligned_byKey (b o t : List Rec) (u : List Str) :
    conflictsForAligned u (u.map (fun k => rowAt b k))
      (u.map (fun k => rowAt o k)) (u.map (fun k => rowAt t k))
    = conflictsFor b o t u := by
  unfold conflictsForAligned conflictsFor
  refine congrArg List.flatten (List.map_congr_left ?_)
  intro c hc
  exact zipFilter_byKey c b o t u

theorem three_way_merge_nodup {b o t : List Rec}
    (hb : (b.map key_row).Nodup) (ho : (o.map key_row).Nodup)
    (ht : (t.map key_row).Nodup) :
    three_way_merge b o t =
      some ((keyUnion (b.map key_row) (o.map key_row) (t.map key_row)).map
          (fun k => mergedRow b o t k),
        conflictsFor b o t
          (keyUnion (b.map key_row) (o.map key_row) (t.map key_row))) := by
  simp only [three_way_merge, reindexTbl_of_nodup hb, reindexTbl_of_nodup ho,
    reindexTbl_of_nodup ht, aligned_eq_byKey, conflictsAligned_byKey]

theorem zipSelf_merged (X : List Rec)
    (htext : ∀ r ∈ X, ∀ c : TCol, (textGet c r).isSome) :
    ((X.map some).zip ((X.map some).zip (X.map some))).map
      (fun p => mergedRowCells p.1 p.2.1 p.2.2) = X := by
  induction X with
  | nil => rfl
  | cons r rs ih =>
    simp only [List.map_cons, List.zip_cons_cons]
    rw [mergedRowCells_same (htext r (List.mem_cons_self r rs)),
      ih (fun r2 hr2 => htext r2 (List.mem_cons_of_mem r hr2))]

theorem zipSelf_filter_nil (c : TCol) (X : List Rec)
    (htext : ∀ r ∈ X, ∀ c2 : TCol, (textGet c2 r).isSome) :
    ((X.map key_row).zip ((X.map some).zip ((X.map some).zip
        (X.map some)))).filter
      (fun p => bothTextAt c p.2.1 p.2.2.1 p.2.2.2) = [] := by
  induction X with
  | nil => rfl
  | cons r rs ih =>
    have hb : bothTextAt c (some r) (some r) (some r) = false := by
      obtain ⟨v, hv⟩ := Option.isSome_iff_exists.mp
        (htext r (List.mem_cons_self r rs) c)
      simp [bothTextAt, hv, bothTextVal_same]
    simp only [List.map_cons, List.zip_cons_cons, List.filter_cons, hb,
      Bool.false_eq_true, if_false]
    exact ih (fun r2 hr2 c2 => htext r2 (List.mem_cons_of_mem r hr2) c2)

theorem zipSelf_conflicts (X : List Rec)
    (htext : ∀ r ∈ X, ∀ c : TCol, (textGet c r).isSome) :
    conflictsForAligned (X.map key_row) (X.map some) (X.map some)
      (X.map some) = [] := by
  unfold conflictsForAligned
  simp only [List.map_cons, List.map_nil]
  rw [zipSelf_filter_nil TCol.first_name X htext,
    zipSelf_filter_nil TCol.last_name X htext,
    zipSelf_filter_nil TCol.file_name X htext]
  rfl

theorem mem_conflictsFor {b o t : List Rec} {u : List Str} {c : TCol} {k : Str} :
    (c, k) ∈ conflictsFor b o t u ↔ (k ∈ u ∧ textBoth b o t c k = true) := by
  unfold conflictsFor
  simp only [List.mem_flatten, List.mem_map, List.mem_filter]
  constructor
  · rintro ⟨L, ⟨c2, hc2, rfl⟩, hmem⟩
    obtain ⟨k2, hk2, heq⟩ := List.mem_map.mp hmem
    obtain ⟨hku, hb⟩ := List.mem_filter.mp hk2
    cases heq
    exact ⟨hku, hb⟩
  · rintro ⟨hku, hb⟩
    refine ⟨(u.filter (fun k2 => textBoth b o t c k2)).map (fun k2 => (c, k2)),
      ⟨c, ?_, rfl⟩, ?_⟩
    · cases c <;> simp
    · exact List.mem_map.mpr ⟨k, List.mem_filter.mpr ⟨hku, hb⟩, rfl⟩

/-- Positional record constructor, for concrete tables in witnesses and
counterexamples. -/
def mkRec (f l fi : Option Str) (se iv cv co : Bool) : Rec :=
  { first_name := f, last_name := l, file_name := fi,
    seen := se, intend_view := iv, cv_saved := cv, contacted := co }

-- ------------------------------------------------------------------
-- Claim C6: merge no-op law.
-- ------------------------------------------------------------------

/-- A one-row table whose `first_name` cell is NaN (e.g. the result of
`_ensure_schema` on a CSV with an empty `first_name` field). -/
def mergeNoopCexTable : List Rec :=
  [mkRec none (some []) (some []) false false false false]

/-- C6 counterexample: `merge(X, X, X) == (X, [])` fails for a table
with a missing (NaN) text value: the text loop's `fillna("")` rewrites
the NaN cell to the empty string, so the merged table is not `X`
(the conflict list is still empty). -/
theorem merge_noop_missing_text_cex :
    three_way_merge mergeNoopCexTable mergeNoopCexTable mergeNoopCexTable =
      some ([mkRec (some []) (some []) (some []) false false false false], [])
    ∧ three_way_merge mergeNoopCexTable mergeNoopCexTable mergeNoopCexTable ≠
      some (mergeNoopCexTable, []) := by
  constructor
  · decide
  · decide

/-- C6 (amended): for every table with no missing (NaN) text values —
duplicate record keys allowed — `three_way_merge X X X = some (X, [])`:
the equal-operand `Index.union` fast path keeps the index unchanged and
`Index.reindex`'s `self.equals(target)` shortcut aligns the equal
(possibly duplicate-labelled) indexes positionally, so the merged table
is `X` itself and the conflict list is empty. -/
theorem merge_noop_amended (X : List Rec)
    (htext : ∀ r ∈ X, ∀ c : TCol, (textGet c r).isSome) :
    three_way_merge X X X = some (X, []) := by
  have hu : keyUnion (X.map key_row) (X.map key_row) (X.map key_row)
      = X.map key_row := keyUnion_eq_left rfl rfl
  have hX : reindexTbl X (X.map key_row) = some (X.map some) :=
    reindexTbl_eq rfl
  simp only [three_way_merge, hu, hX,
    zipSelf_merged X htext, zipSelf_conflicts X htext]

/-- C6 witness: the amended law evaluated on a concrete one-row
table. -/
theorem merge_noop_amended_witness :
    three_way_merge [mkRec (some s_y) (some s_yes) (some s_one) true false true false]
      [mkRec (some s_y) (some s_yes) (some s_one) true false true false]
      [mkRec (some s_y) (some s_yes) (some s_one) true false true false] =
      some ([mkRec (some s_y) (some s_yes) (some s_one) true false true false], []) :=
  merge_noop_amended _
    (by
      intro r hr c
      rw [List.mem_singleton] at hr
      subst hr
      cases c <;> decide)

-- ------------------------------------------------------------------
-- Claim C9: totality of the merge on duplicate-free inputs.
-- ------------------------------------------------------------------

/-- C7: `_ensure_schema` is idempotent on every input table, and it is
total on missing or malformed columns — it never drops or rejects a
row (the output has one row per input row), a missing text column is
defaulted to `""` cells and a missing flag column to `False` (shown
for `first_name` and `seen`; the other columns are word-for-word the
same code).  Malformed flag text is coerced by `coerceCell`, total by
construction. -/
theorem ensure_schema_idempotent :
    (∀ d : RawTable, ensure_schema (toRaw (ensure_schema d)) = ensure_schema d)
    ∧ (∀ d : RawTable, (ensure_schema d).length = d.rows.length)
    ∧ (∀ d : RawTable, d.has_first = false →
        ∀ r ∈ ensure_schema d, r.first_name = some [])
    ∧ (∀ d : RawTable, d.has_seen = false →
        ∀ r ∈ ensure_schema d, r.seen = false) := by
  refine ⟨fun d => ensure_schema_toRaw _, fun d => List.length_map _ _, ?_, ?_⟩
  · intro d hd r hr
    obtain ⟨rr, hrr, rfl⟩ := List.mem_map.mp hr
    simp [hd]
  · intro d hd r hr
    obtain ⟨rr, hrr, rfl⟩ := List.mem_map.mp hr
    simp [hd]

/-- A raw table exercising loosely-typed flag text: `"Y"`, `"0"`,
`"TRUE"` and a malformed value, with a missing `contacted` column. -/
def looseRawTable : RawTable :=
  { has_first := true, has_last := false, has_file := true,
    has_seen := true, has_intend := true, has_cv := true,
    has_contacted := false,
    rows := [{ first_name := some s_yes, last_name := none, file_name := none,
               seen := some [Ch.up 24],
               intend_view := some [Ch.sym 48],
               cv_saved := some [Ch.up 19, Ch.up 17, Ch.up 20, Ch.up 4],
               contacted := some [Ch.sym 63] }] }

/-- A raw table with no columns at all. -/
def emptyColsRawTable : RawTable :=
  { has_first := false, has_last := false, has_file := false,
    has_seen := false, has_intend := false, has_cv := false,
    has_contacted := false,
    rows := [{ first_name := none, last_name := none, file_name := none,
               seen := none, intend_view := none, cv_saved := none,
               contacted := none }] }

/-- C7 witness: idempotence on the loosely-typed table (whose `"Y"` and
`"TRUE"` coerce to `True`, `"0"` and `"?"` to `False`), and the
defaulting clauses on the column-free table. -/
theorem ensure_schema_idempotent_witness :
    ensure_schema (toRaw (ensure_schema looseRawTable)) = ensure_schema looseRawTable
    ∧ (∀ r ∈ ensure_schema emptyColsRawTable, r.first_name = some [])
    ∧ (∀ r ∈ ensure_schema emptyColsRawTable, r.seen = false) :=
  ⟨ensure_schema_idempotent.1 looseRawTable,
   ensure_schema_idempotent.2.2.1 emptyColsRawTable rfl,
   ensure_schema_idempotent.2.2.2 emptyColsRawTable rfl⟩

-- ------------------------------------------------------------------
-- Claim C10: `utils.update_flag`.
-- ------------------------------------------------------------------

/-- C10: when no row of the state table matches the key derived from
`(first, last, file_name)`, `update_flag` appends one fabricated row —
the raw text arguments with all four flags `False` — and sets the
requested flag on it; when exactly one row matches, exactly that row's
requested flag is set and every other row (and every other field of the
matched row, by definition of `setFlag`) is untouched. -/
theorem update_flag_spec :
    (∀ (tbl : List Rec) (f l fi : Str) (d : BCol) (v : Bool),
      (∀ r ∈ tbl, key_series r ≠ utils_key_str f l fi) →
      update_flag tbl f l fi d v = tbl ++ [setFlag d v (newRow f l fi)])
    ∧ (∀ (pre post : List Rec) (r0 : Rec) (f l fi : Str) (d : BCol) (v : Bool),
      key_series r0 = utils_key_str f l fi →
      (∀ r ∈ pre ++ post, key_series r ≠ utils_key_str f l fi) →
      update_flag (pre ++ r0 :: post) f l fi d v = pre ++ setFlag d v r0 :: post) := by
  constructor
  · intro tbl f l fi d v h
    unfold update_flag
    rw [if_neg]
    intro hany
    obtain ⟨r, hr, hpr⟩ := List.any_eq_true.mp hany
    exact h r hr (of_decide_eq_true hpr)
  · intro pre post r0 f l fi d v hk hothers
    unfold update_flag
    rw [if_pos]
    · rw [List.map_append, List.map_cons]
      have hpre : pre.map (fun r =>
          if key_series r = utils_key_str f l fi then setFlag d v r else r) = pre := by
        have := List.map_congr_left (l := pre)
          (f := fun r => if key_series r = utils_key_str f l fi then setFlag d v r else r)
          (g := id) (fun r hr => if_neg (hothers r (List.mem_append_left _ hr)))
        rw [this, List.map_id]
      have hpost : post.map (fun r =>
          if key_series r = utils_key_str f l fi then setFlag d v r else r) = post := by
        have := List.map_congr_left (l := post)
          (f := fun r => if key_series r = utils_key_str f l fi then setFlag d v r else r)
          (g := id) (fun r hr => if_neg (hothers r (List.mem_append_right _ hr)))
        rw [this, List.map_id]
      rw [hpre, hpost, if_pos hk]
    · exact List.any_eq_true.mpr
        ⟨r0, by simp, decide_eq_true hk⟩

/-- C10 witness: fabrication on the empty table, then targeted update
of the (unique) matching row of the result. -/
theorem update_flag_spec_witness :
    update_flag [] s_y s_yes s_one BCol.seen true
      = [setFlag BCol.seen true (newRow s_y s_yes s_one)]
    ∧ update_flag [setFlag BCol.seen true (newRow s_y s_yes s_one)]
        s_y s_yes s_one BCol.contacted true
      = [setFlag BCol.contacted true (setFlag BCol.seen true (newRow s_y s_yes s_one))] := by
  constructor
  · exact update_flag_spec.1 [] s_y s_yes s_one BCol.seen true
      (fun r hr => absurd hr (List.not_mem_nil r))
  · have h := update_flag_spec.2 [] []
      (setFlag BCol.seen true (newRow s_y s_yes s_one))
      s_y s_yes s_one BCol.contacted true (by decide)
      (fun r hr => absurd hr (List.not_mem_nil r))
    simpa using h

-- ------------------------------------------------------------------
-- Claim C1: merge conflict policy.
-- ------------------------------------------------------------------

theorem mergeTextVal_both {vb vo vt : Str} (h1 : ¬ vo = vb) (h2 : ¬ vt = vb) :
    mergeTextVal (some vb) (some vo) (some vt) = vo := by
  simp [mergeTextVal, neqNA, kand, knot, ktrue, h1, h2]

theorem bothTextVal_both {vb vo vt : Str} (h1 : ¬ vo = vb) (h2 : ¬ vt = vb) :
    bothTextVal (some vb) (some vo) (some vt) = true := by
  simp [bothTextVal, neqNA, kand, ktrue, h1, h2]

theorem mergeBoolVal_both {xb xo xt : Bool} (h1 : ¬ xo = xb) (h2 : ¬ xt = xb) :
    mergeBoolVal (some xb) (some xo) (some xt) = (xo || xt) := by
  cases xb <;> cases xo <;> cases xt <;>
    first
      | decide
      | exact absurd rfl h1
      | exact absurd rfl h2

/-- C1 counterexample: base flag `false`, ours `true`, theirs `true` —
both sides changed `seen` relative to base, the merged flag is the OR
(`true`), but the conflict list of the merge is EMPTY: the flag loop of
`_three_way_merge` never appends to `conflicts` (only the text loop
does), refuting "in both cases a conflict entry identified by
(field, key) is recorded". -/
theorem bool_conflict_not_recorded_cex :
    three_way_merge
      [mkRec (some s_y) (some []) (some []) false false false false]
      [mkRec (some s_y) (some []) (some []) true false false false]
      [mkRec (some s_y) (some []) (some []) true false false false]
      = some ([mkRec (some s_y) (some []) (some []) true false false false], []) := by
  decide

/-- C1 (amended): for a key present in all three duplicate-free tables:
on a text field where both sides changed relative to base (all values
present), the merged value is ours' value and the conflict entry
`(field, key)` is recorded; on a boolean flag where both sides changed,
the merged value is the logical OR of the two sides but NO conflict
entry is recorded — the conflict list contains exactly the text-field
double-change entries (last conjunct). -/
theorem merge_conflict_policy_amended
    (b o t : List Rec) (k : Str) (rB rO rT : Rec)
    (hb : (b.map key_row).Nodup) (ho : (o.map key_row).Nodup)
    (ht : (t.map key_row).Nodup)
    (hrB : rowAt b k = some rB) (hrO : rowAt o k = some rO)
    (hrT : rowAt t k = some rT) :
    ∃ m cs, three_way_merge b o t = some (m, cs)
      ∧ mergedRow b o t k ∈ m
      ∧ (∀ (c : TCol) (vb vo vt : Str),
          textGet c rB = some vb → textGet c rO = some vo → textGet c rT = some vt →
          ¬ vo = vb → ¬ vt = vb →
          textGet c (mergedRow b o t k) = some vo ∧ (c, k) ∈ cs)
      ∧ (∀ d2 : BCol, ¬ flagGet d2 rO = flagGet d2 rB → ¬ flagGet d2 rT = flagGet d2 rB →
          flagGet d2 (mergedRow b o t k) = (flagGet d2 rO || flagGet d2 rT))
      ∧ (∀ (c : TCol) (k2 : Str), (c, k2) ∈ cs ↔
          (k2 ∈ keyUnion (b.map key_row) (o.map key_row) (t.map key_row)
            ∧ textBoth b o t c k2 = true)) := by
  have hkmem : k ∈ b.map key_row := by
    have hrB2 : List.find? (fun r => decide (key_row r = k)) b = some rB := hrB
    have h0 := List.find?_some hrB2
    have h1 : key_row rB = k := of_decide_eq_true h0
    exact h1 ▸ List.mem_map_of_mem key_row (List.mem_of_find?_eq_some hrB2)
  rw [three_way_merge_nodup hb ho ht]
  refine ⟨_, _, rfl, ?_, ?_, ?_, fun c k2 => mem_conflictsFor⟩
  · exact List.mem_map_of_mem _ (mem_keyUnion.mpr (Or.inl hkmem))
  · intro c vb vo vt h1 h2 h3 hvo hvt
    constructor
    · rw [textGet_mergedRow, hrB, hrO, hrT]
      show some (mergeTextVal (textGet c rB) (textGet c rO) (textGet c rT)) = some vo
      rw [h1, h2, h3, mergeTextVal_both hvo hvt]
    · apply mem_conflictsFor.mpr
      refine ⟨mem_keyUnion.mpr (Or.inl hkmem), ?_⟩
      unfold textBoth
      rw [hrB, hrO, hrT]
      show bothTextVal (textGet c rB) (textGet c rO) (textGet c rT) = true
      rw [h1, h2, h3]
      exact bothTextVal_both hvo hvt
  · intro d2 ho2 ht2
    rw [flagGet_mergedRow, hrB, hrO, hrT]
    show mergeBoolVal (some (flagGet d2 rB)) (some (flagGet d2 rO))
      (some (flagGet d2 rT)) = (flagGet d2 rO || flagGet d2 rT)
    exact mergeBoolVal_both ho2 ht2

/-- C1 witness: the amended theorem applied to concrete one-row tables
with a boolean double change (in which the OR resolution is observed)
and, via the last conjunct, an empty conflict set. -/
theorem merge_conflict_policy_amended_witness :
    ∃ m cs, three_way_merge
        [mkRec (some s_y) (some []) (some []) false false false false]
        [mkRec (some s_y) (some []) (some []) true false false false]
        [mkRec (some s_y) (some []) (some []) true false false false]
        = some (m, cs)
      ∧ flagGet BCol.seen (mergedRow
          [mkRec (some s_y) (some []) (some []) false false false false]
          [mkRec (some s_y) (some []) (some []) true false false false]
          [mkRec (some s_y) (some []) (some []) true false false false]
          (app_key_str s_y [] [])) = true := by
  obtain ⟨m, cs, hm, -, -, hflag, -⟩ := merge_conflict_policy_amended
    [mkRec (some s_y) (some []) (some []) false false false false]
    [mkRec (some s_y) (some []) (some []) true false false false]
    [mkRec (some s_y) (some []) (some []) true false false false]
    (app_key_str s_y [] [])
    (mkRec (some s_y) (some []) (some []) false false false false)
    (mkRec (some s_y) (some []) (some []) true false false false)
    (mkRec (some s_y) (some []) (some []) true false false false)
    (by decide) (by decide) (by decide) (by decide) (by decide) (by decide)
  refine ⟨m, cs, hm, ?_⟩
  exact (hflag BCol.seen (by decide) (by decide)).trans (by decide)


-- ------------------------------------------------------------------
-- Claim C2: the flush sequence.
-- ------------------------------------------------------------------

/-- Positional constructor for schneider session states. -/
def mkSch (df : List Rec) (dirty : Bool) (lbw lst : ℚ) : SchState :=
  { df := df, buffer_dirty := dirty, last_batch_write := lbw, last_save_ts := lst }

/-- Positional constructor for capgemini session states. -/
def mkCap (df : List Rec) (base : Option (List Rec)) (lbw : ℚ) (dirty : Bool) :
    CapState :=
  { df := df, base := base, last_batch_write := lbw, buffer_dirty := dirty }

/-- Positional constructor for remote environments. -/
def mkEnv (d c : FetchRes) (u : Bool) : CapEnv :=
  { dbxFetch := d, csvFetch := c, uploadOk := u }

/-- C2 counterexample: the schneider `_flush_to_disk` does not fetch,
does not merge and keeps no base snapshot — it uploads the serialized
CURRENT working table.  Concretely: with an empty working table, the
flush uploads the serialization of the empty table, which differs from
the serialized merge result mandated by the claim whenever the remote
holds a row (the three-way merge of empty base, empty ours and a
one-row theirs keeps theirs' row). -/
theorem schneider_flush_no_merge_cex :
    (schFlush true true 0 (mkSch [] true 0 0)).2.1 = some (write_state_csv [])
    ∧ three_way_merge [] []
        [mkRec (some s_y) (some []) (some []) true false false false]
      = some ([mkRec (some s_y) (some []) (some []) true false false false], [])
    ∧ write_state_csv [] ≠
        write_state_csv [mkRec (some s_y) (some []) (some []) true false false false] := by
  refine ⟨rfl, by decide, by decide⟩

/-- C2 (amended): in the capgemini variant, every flush fetches the
remote table (API first, read-only CSV on failure), three-way merges it
with the base snapshot and the working table, uploads the serialized
merged result, and only on upload success replaces the working table
with the merged result and re-baselines the snapshot to it; in the
schneider variant a flush uploads the serialized current working table
directly — no fetch, no merge, no base snapshot — leaving the working
table as it was. -/
theorem flush_sequence_amended :
    (∀ (env : CapEnv) (now : ℚ) (s : CapState) (r m : List Rec)
        (cs : List (TCol × Str)),
      fetchedRemote env = some r →
      three_way_merge (s.base.getD r) s.df r = some (m, cs) →
      (capFlush env now s).2 = FlushOut.wrote (write_state_csv m) env.uploadOk
      ∧ (env.uploadOk = true → (capFlush env now s).1.df = m
          ∧ (capFlush env now s).1.base = some m)
      ∧ (env.uploadOk = false → (capFlush env now s).1.df = s.df
          ∧ (capFlush env now s).1.base = s.base))
    ∧ (∀ (dbxC upOk : Bool) (now : ℚ) (s : SchState),
      (schFlush dbxC upOk now s).2.1
          = (if dbxC then some (write_state_csv s.df) else none)
      ∧ (schFlush dbxC upOk now s).1.df = s.df) := by
  constructor
  · intro env now s r m cs hf hm
    unfold capFlush
    cases hup : env.uploadOk <;>
      simp [hf, hm, hup, ensure_schema_toRaw]
  · intro dbxC upOk now s
    cases dbxC <;> simp [schFlush, write_state_df]

/-- C2 witness: the capgemini conclusions on a concrete successful
flush of the empty table, and the schneider conclusion on a concrete
state. -/
theorem flush_sequence_amended_witness :
    (capFlush (mkEnv (FetchRes.ok []) FetchRes.fail true) 1 (mkCap [] none 0 false)).2
      = FlushOut.wrote (write_state_csv []) true
    ∧ (schFlush true true 1 (mkSch [] false 0 0)).1.df = [] := by
  constructor
  · exact (flush_sequence_amended.1 (mkEnv (FetchRes.ok []) FetchRes.fail true) 1
      (mkCap [] none 0 false) [] [] [] (by decide) (by decide)).1
  · exact (flush_sequence_amended.2 true true 1 (mkSch [] false 0 0)).2

-- ------------------------------------------------------------------
-- Claim C4: flush failure behaviour.
-- ------------------------------------------------------------------

/-- C4 counterexample: a failed upload is NOT a complete no-op on local
state, and pending edits do not remain marked dirty: a schneider flush
whose upload fails (from a dirty state at t=0, flushing at t=5) leaves
`buffer_dirty = false` and `last_batch_write = 5`, though the failure
is surfaced (`ok = false`). -/
theorem flush_failure_clears_dirty_cex :
    (schFlush true false 5 (mkSch [] true 0 0)).1.buffer_dirty = false
    ∧ (schFlush true false 5 (mkSch [] true 0 0)).1.last_batch_write = 5
    ∧ (schFlush true false 5 (mkSch [] true 0 0)).2.2 = false := by
  refine ⟨rfl, rfl, rfl⟩

/-- C4 (amended): on upload failure the working table (and, in
capgemini, the base snapshot) is unchanged and the failure is surfaced
to the caller, but the flush is not a complete no-op on the rest of the
local state: both variants still stamp `last_batch_write := now` and
clear the pending-dirty flag, so the surviving edits are retried only
by triggers that do not consult that flag (capgemini's unconditional
autosave; schneider's filter-toggle and explicit saves). -/
theorem flush_failure_amended :
    (∀ (env : CapEnv) (now : ℚ) (s : CapState) (r m : List Rec)
        (cs : List (TCol × Str)),
      fetchedRemote env = some r →
      three_way_merge (s.base.getD r) s.df r = some (m, cs) →
      env.uploadOk = false →
      (capFlush env now s).1.df = s.df
      ∧ (capFlush env now s).1.base = s.base
      ∧ (capFlush env now s).2 = FlushOut.wrote (write_state_csv m) false
      ∧ (capFlush env now s).1.buffer_dirty = false
      ∧ (capFlush env now s).1.last_batch_write = now)
    ∧ (∀ (dbxC upOk : Bool) (now : ℚ) (s : SchState),
      dbxC = false ∨ upOk = false →
      (schFlush dbxC upOk now s).2.2 = false
      ∧ (schFlush dbxC upOk now s).1.df = s.df
      ∧ (schFlush dbxC upOk now s).1.buffer_dirty = false
      ∧ (schFlush dbxC upOk now s).1.last_batch_write = now) := by
  constructor
  · intro env now s r m cs hf hm hup
    unfold capFlush
    simp [hf, hm, hup]
  · intro dbxC upOk now s h
    unfold schFlush write_state_df
    rcases h with h | h <;> subst h
    · simp
    · cases dbxC <;> simp

/-- C4 witness: both failure clauses evaluated on concrete states. -/
theorem flush_failure_amended_witness :
    (capFlush (mkEnv (FetchRes.ok []) FetchRes.fail false) 2
        (mkCap [] none 0 true)).1.df = []
    ∧ (schFlush true false 2 (mkSch [] true 0 0)).2.2 = false := by
  constructor
  · exact (flush_failure_amended.1 (mkEnv (FetchRes.ok []) FetchRes.fail false) 2
      (mkCap [] none 0 true) [] [] [] (by decide) (by decide) (by decide)).1
  · exact (flush_failure_amended.2 true false 2 (mkSch [] true 0 0) (Or.inr rfl)).1

-- ------------------------------------------------------------------
-- Claim C5: save policy for buffered (unfiltered) edits.
-- ------------------------------------------------------------------

/-- Positional constructor for capgemini tick states. -/
def mkCapTick (c : CapState) (las : ℚ) : CapTickState :=
  { cap := c, last_auto_save := las }

/-- C5 counterexample: in the capgemini variant a single non-empty
delta with no filter active DOES cause a remote write before 30 s have
elapsed since the last flush: at t=6 with the last auto-save and last
flush at t=0, the rerun performs exactly one flush, and that flush
uploads — the capgemini auto-save fires every 5 s unconditionally, and
no pending-dirty flag is ever set. -/
theorem capgemini_autosave_before_interval_cex :
    (capTick (mkEnv (FetchRes.ok []) FetchRes.fail true) true false 6
      (mkCapTick (mkCap [] (some []) 0 false) 0)).2 = 1
    ∧ (capFlush (mkEnv (FetchRes.ok []) FetchRes.fail true) 6
        (mkCap [] (some []) 0 false)).2 = FlushOut.wrote (write_state_csv []) true
    ∧ (6 : ℚ) - 0 < BATCH_SAVE_INTERVAL_SEC := by
  refine ⟨?_, by decide, by norm_num [BATCH_SAVE_INTERVAL_SEC]⟩
  norm_num [capTick, mkCapTick, mkCap]

/-- C5 (amended): in the schneider variant the claim holds — an
unfiltered non-empty delta only sets the pending-dirty flag and causes
no flush while `now - last_batch_write < 30`, and an explicit
"save now" performs exactly one unconditional flush; in the capgemini
variant there is no buffering: every rerun at least 5 s after the last
auto-save flushes exactly once regardless of edits (and "save now"
always flushes). -/
theorem save_policy_amended :
    (∀ (dbxC upOk : Bool) (now : ℚ) (s : SchState),
      now - s.last_batch_write < BATCH_SAVE_INTERVAL_SEC →
      (schTick dbxC upOk false true false now s).2 = 0
      ∧ (schTick dbxC upOk false true false now s).1.buffer_dirty = true)
    ∧ (∀ (dbxC upOk : Bool) (now : ℚ) (s : SchState),
      (schTick dbxC upOk false true true now s).2 = 1)
    ∧ (∀ (env : CapEnv) (deltaNonEmpty : Bool) (now : ℚ) (s : CapTickState),
      (5 : ℚ) ≤ now - s.last_auto_save →
      (capTick env deltaNonEmpty false now s).2 = 1)
    ∧ (∀ (env : CapEnv) (deltaNonEmpty : Bool) (now : ℚ) (s : CapTickState),
      1 ≤ (capTick env deltaNonEmpty true now s).2) := by
  refine ⟨?_, ?_, ?_, ?_⟩
  · intro dbxC upOk now s h
    have hd : decide (BATCH_SAVE_INTERVAL_SEC ≤ now - s.last_batch_write) = false :=
      decide_eq_false (not_le.mpr h)
    constructor <;> simp [schTick, hd]
  · intro dbxC upOk now s
    simp [schTick, schFlush]
  · intro env delta now s h
    have hd : decide ((5 : ℚ) ≤ now - s.last_auto_save) = true := decide_eq_true h
    simp [capTick, hd]
  · intro env delta now s
    unfold capTick
    cases hd : decide ((5 : ℚ) ≤ now - s.last_auto_save) <;> simp [hd]

/-- C5 witness: the three schneider/capgemini clauses with hypotheses,
evaluated at concrete times and states. -/
theorem save_policy_amended_witness :
    ((schTick true true false true false 5 (mkSch [] false 0 0)).2 = 0
      ∧ (schTick true true false true false 5 (mkSch [] false 0 0)).1.buffer_dirty = true)
    ∧ (schTick true true false true true 5 (mkSch [] false 0 0)).2 = 1
    ∧ (capTick (mkEnv (FetchRes.ok []) FetchRes.fail true) true false 9
        (mkCapTick (mkCap [] (some []) 0 false) 0)).2 = 1 := by
  refine ⟨?_, ?_, ?_⟩
  · exact save_policy_amended.1 true true 5 (mkSch [] false 0 0)
      (by norm_num [BATCH_SAVE_INTERVAL_SEC, mkSch])
  · exact save_policy_amended.2.1 true true 5 (mkSch [] false 0 0)
  · exact save_policy_amended.2.2.1 (mkEnv (FetchRes.ok []) FetchRes.fail true)
      true 9 (mkCapTick (mkCap [] (some []) 0 false) 0)
      (by norm_num [mkCapTick])

-- ------------------------------------------------------------------
-- Claim C3: record-key stability.
-- ------------------------------------------------------------------

/-- C3 counterexample: the apps' `_key` is NOT diacritic-insensitive.
The first names `á` (a precomposed accented letter) and `a` differ only
by diacritics (their diacritic/case/whitespace canonical forms agree),
yet `_key` — which lowers and strips but never applies `_norm`'s NFKD
and combining-mark removal — produces different keys, so the claim
fails for this key-computing component of the program. -/
theorem app_key_diacritics_cex :
    dcwEq [Ch.loAcc 0 0] [Ch.lo 0]
    ∧ app_key_str [Ch.loAcc 0 0] [] [] ≠ app_key_str [Ch.lo 0] [] [] := by
  constructor
  · rfl
  · decide

/-- C3 (amended): the apps' `_key` yields equal keys whenever the name
components differ only by letter case and surrounding whitespace and
the file component differs only by surrounding whitespace (diacritics,
and letter case of the file component, change the apps' keys); the
utils key (`_key_series` and `update_flag`'s target key) yields equal
keys whenever the name components differ only by diacritics, letter
case and surrounding whitespace and the file component differs only by
letter case and surrounding whitespace. -/
theorem key_stability_amended :
    (∀ f1 f2 l1 l2 i1 i2 : Str, cwEq f1 f2 → cwEq l1 l2 → wsEq i1 i2 →
      app_key_str f1 l1 i1 = app_key_str f2 l2 i2)
    ∧ (∀ f1 f2 l1 l2 i1 i2 : Str, dcwEq f1 f2 → dcwEq l1 l2 → cwEq i1 i2 →
      utils_key_str f1 l1 i1 = utils_key_str f2 l2 i2) := by
  constructor
  · intro f1 f2 l1 l2 i1 i2 hf hl hi
    unfold app_key_str
    rw [forall2_caseEq_pyLower hf, forall2_caseEq_pyLower hl, hi]
  · intro f1 f2 l1 l2 i1 i2 hf hl hi
    unfold utils_key_str
    have hfile : utilsKeyFile i1 = utilsKeyFile i2 := by
      unfold utilsKeyFile
      rw [pyStrip_pyLower, pyStrip_pyLower, forall2_caseEq_pyLower hi]
    rw [utilsKeyName_eq_dcwCanon f1, utilsKeyName_eq_dcwCanon f2,
      utilsKeyName_eq_dcwCanon l1, utilsKeyName_eq_dcwCanon l2, hf, hl, hfile]

/-- C3 witness: the app clause on `"K"` versus `"k"` with a
space-padded file reference, and the utils clause on `"Á"` (accented,
upper case) versus `"a"`. -/
theorem key_stability_amended_witness :
    app_key_str [Ch.up 10] [] [Ch.space, Ch.sym 46] =
      app_key_str [Ch.lo 10] [] [Ch.sym 46]
    ∧ utils_key_str [Ch.upAcc 0 0] [] [] = utils_key_str [Ch.lo 0] [] [] := by
  constructor
  · exact key_stability_amended.1 [Ch.up 10] [Ch.lo 10] [] [] [Ch.space, Ch.sym 46]
      [Ch.sym 46] (List.Forall₂.cons rfl List.Forall₂.nil) List.Forall₂.nil rfl
  · exact key_stability_amended.2 [Ch.upAcc 0 0] [Ch.lo 0] [] [] [] []
      rfl rfl List.Forall₂.nil

-- ------------------------------------------------------------------
-- Claim C8: CSV round-trip.
-- ------------------------------------------------------------------

/-- What one serialized row parses back to: text fields NA-mapped (an
empty field is NaN), flag fields as the `"0"`/`"1"` strings. -/
def reparseRow (r : Rec) : RawRow :=
  { first_name := toNA (r.first_name.getD [])
    last_name := toNA (r.last_name.getD [])
    file_name := toNA (r.file_name.getD [])
    seen := toNA (b01 r.seen)
    intend_view := toNA (b01 r.intend_view)
    cv_saved := toNA (b01 r.cv_saved)
    contacted := toNA (b01 r.contacted) }

theorem parseRaw_serialize (L : List Rec) :
    parseRaw csvHeader (L.map rowFields) =
      { has_first := true, has_last := true, has_file := true, has_seen := true,
        has_intend := true, has_cv := true, has_contacted := true,
        rows := L.map reparseRow } := by
  have h1 : parseRaw csvHeader (L.map rowFields) =
      RawTable.mk true true true true true true true
        ((L.map rowFields).map (fun r => RawRow.mk
          (cellAt csvHeader r h_first) (cellAt csvHeader r h_last)
          (cellAt csvHeader r h_file) (cellAt csvHeader r h_seen)
          (cellAt csvHeader r h_intend) (cellAt csvHeader r h_cv)
          (cellAt csvHeader r h_contacted))) := rfl
  rw [h1, List.map_map]
  exact congrArg (RawTable.mk true true true true true true true)
    (List.map_congr_left (fun r hr => rfl))

theorem coerceCell_roundtrip (x : Bool) : coerceCell (toNA (b01 x)) = x := by
  cases x <;> rfl

/-- A text cell survives the CSV round trip: `none` (NaN), or a string
that is not a `read_csv` NA token (the empty string is one), does not
look numeric and is not a boolean literal (so its column cannot
trigger dtype inference). -/
def cellOk : Option Str → Bool
  | none => true
  | some s => decide (¬ (s ∈ naTokens)) && !(isNumLike s) && !(isBoolTok s)

theorem toNA_getD {x : Option Str} (hx : cellOk x = true) : toNA (x.getD []) = x := by
  cases x with
  | none => rfl
  | some s =>
    have hx2 := hx
    simp only [cellOk, Bool.and_eq_true] at hx2
    have hns : ¬ (s ∈ naTokens) := of_decide_eq_true hx2.1.1
    show toNA s = some s
    unfold toNA
    rw [if_neg hns]

theorem colConvertible_toNA {L : List Rec} {g : Rec → Option Str}
    (hg : ∀ r ∈ L, cellOk (g r) = true) :
    colConvertible (L.map (fun r => toNA ((g r).getD []))) = false := by
  unfold colConvertible
  cases hv : (L.map (fun r => toNA ((g r).getD []))).filterMap id with
  | nil => rfl
  | cons v vs =>
    have hvmem : v ∈ (L.map (fun r => toNA ((g r).getD []))).filterMap id := by
      rw [hv]; exact List.mem_cons_self v vs
    obtain ⟨x, hx, hxv⟩ := List.mem_filterMap.mp hvmem
    obtain ⟨r, hr, hxr⟩ := List.mem_map.mp hx
    have hok := hg r hr
    have hprops : isNumLike v = false ∧ isBoolTok v = false := by
      cases hgr : g r with
      | none =>
        exfalso
        rw [hgr] at hxr
        rw [← hxr] at hxv
        simp [toNA, naTokens] at hxv
      | some s =>
        rw [hgr] at hok hxr
        simp only [cellOk, Bool.and_eq_true] at hok
        obtain ⟨⟨hna, hnum⟩, hbool⟩ := hok
        have hs : toNA ((some s : Option Str).getD []) = some s := by
          show toNA s = some s
          unfold toNA
          rw [if_neg (of_decide_eq_true hna)]
        have hx2 : x = some s := hxr.symm.trans hs
        rw [hx2] at hxv
        have hv2 : s = v := by simpa using hxv
        constructor
        · rw [← hv2]
          simpa using hnum
        · rw [← hv2]
          simpa using hbool
    have h1 : (v :: vs).all isNumLike = false := by
      simp [List.all_cons, hprops.1]
    have h2 : (v :: vs).all isBoolTok = false := by
      simp [List.all_cons, hprops.2]
    rw [h1, h2]
    rfl

theorem ensure_schema_allTrue (L : List RawRow) :
    ensure_schema (RawTable.mk true true true true true true true L) =
    L.map (fun rr : RawRow =>
      ({ first_name := rr.first_name, last_name := rr.last_name,
         file_name := rr.file_name, seen := coerceCell rr.seen,
         intend_view := coerceCell rr.intend_view,
         cv_saved := coerceCell rr.cv_saved,
         contacted := coerceCell rr.contacted } : Rec)) := rfl

/-- A raw table whose `first_name` column is missing: `_ensure_schema`
fills the cell with `""`, which serializes to an empty CSV field and
parses back as NaN. -/
def emptyTextRaw : RawTable :=
  { has_first := false, has_last := true, has_file := true, has_seen := true,
    has_intend := true, has_cv := true, has_contacted := true,
    rows := [{ first_name := none, last_name := some s_y, file_name := some s_yes,
               seen := some s_one, intend_view := some s_one,
               cv_saved := some s_one, contacted := some s_one }] }

/-- C8 counterexample: the round trip
`normalizeSchema(parse(serialize(normalizeSchema(T))))` is NOT the
identity on `normalizeSchema(T)` for every `T`: an empty-string text
cell (produced here by `_ensure_schema` itself for the missing
`first_name` column) is written as an empty CSV field, which `read_csv`
parses as NaN, so the round-tripped table has a missing value where the
original had `""`. -/
theorem csv_roundtrip_empty_text_cex :
    (ensure_schema emptyTextRaw).map (fun r => r.first_name) = [some []]
    ∧ Option.map ensure_schema
        (parseCsv (write_state_csv (ensure_schema emptyTextRaw)))
      = some [mkRec none (some s_y) (some s_yes) true true true true]
    ∧ Option.map ensure_schema
        (parseCsv (write_state_csv (ensure_schema emptyTextRaw)))
      ≠ some (ensure_schema emptyTextRaw) := by
  refine ⟨by decide, by decide, by decide⟩

/-- C8 (amended): the persisted format round-trips on every table whose
canonical text cells are each either missing or a string that is not a
`read_csv` NA token (in particular nonempty), does not look numeric and
is not a boolean literal (so no text column triggers dtype inference):
serializing `normalizeSchema(T)` with a header row and 0/1 flags,
parsing it back, and normalizing again yields exactly
`normalizeSchema(T)`. -/
theorem csv_roundtrip_amended (d : RawTable)
    (h : ∀ r ∈ ensure_schema d,
      (cellOk r.first_name && cellOk r.last_name && cellOk r.file_name) = true) :
    Option.map ensure_schema (parseCsv (write_state_csv (ensure_schema d)))
      = some (ensure_schema d) := by
  have hfok : ∀ r ∈ ensure_schema d, cellOk r.first_name = true := by
    intro r hr
    have hok := h r hr
    simp only [Bool.and_eq_true] at hok
    exact hok.1.1
  have hlok : ∀ r ∈ ensure_schema d, cellOk r.last_name = true := by
    intro r hr
    have hok := h r hr
    simp only [Bool.and_eq_true] at hok
    exact hok.1.2
  have hfiok : ∀ r ∈ ensure_schema d, cellOk r.file_name = true := by
    intro r hr
    have hok := h r hr
    simp only [Bool.and_eq_true] at hok
    exact hok.2
  have h1 : write_state_csv (ensure_schema d)
      = csvHeader :: (ensure_schema d).map rowFields := by
    unfold write_state_csv
    rw [ensure_schema_toRaw]
  rw [h1]
  have h2 : parseCsv (csvHeader :: (ensure_schema d).map rowFields)
      = if textColsStr (parseRaw csvHeader ((ensure_schema d).map rowFields))
        then some (parseRaw csvHeader ((ensure_schema d).map rowFields))
        else none := rfl
  rw [h2, parseRaw_serialize]
  have hfc : ((ensure_schema d).map reparseRow).map (fun rr : RawRow => rr.first_name)
      = (ensure_schema d).map (fun r => toNA (r.first_name.getD [])) := by
    rw [List.map_map]
    exact List.map_congr_left (fun r hr => rfl)
  have hlc : ((ensure_schema d).map reparseRow).map (fun rr : RawRow => rr.last_name)
      = (ensure_schema d).map (fun r => toNA (r.last_name.getD [])) := by
    rw [List.map_map]
    exact List.map_congr_left (fun r hr => rfl)
  have hfic : ((ensure_schema d).map reparseRow).map (fun rr : RawRow => rr.file_name)
      = (ensure_schema d).map (fun r => toNA (r.file_name.getD [])) := by
    rw [List.map_map]
    exact List.map_congr_left (fun r hr => rfl)
  have htcols : textColsStr (RawTable.mk true true true true true true true
      ((ensure_schema d).map reparseRow)) = true := by
    show (!(colConvertible (((ensure_schema d).map reparseRow).map
          (fun rr : RawRow => rr.first_name)))
        && !(colConvertible (((ensure_schema d).map reparseRow).map
          (fun rr : RawRow => rr.last_name)))
        && !(colConvertible (((ensure_schema d).map reparseRow).map
          (fun rr : RawRow => rr.file_name)))) = true
    rw [hfc, hlc, hfic, colConvertible_toNA hfok, colConvertible_toNA hlok,
      colConvertible_toNA hfiok]
    rfl
  rw [if_pos htcols]
  show some (ensure_schema (RawTable.mk true true true true true true true
      ((ensure_schema d).map reparseRow))) = some (ensure_schema d)
  rw [ensure_schema_allTrue, List.map_map]
  have hpt : ∀ r ∈ ensure_schema d,
      ((fun rr : RawRow =>
        ({ first_name := rr.first_name, last_name := rr.last_name,
           file_name := rr.file_name, seen := coerceCell rr.seen,
           intend_view := coerceCell rr.intend_view,
           cv_saved := coerceCell rr.cv_saved,
           contacted := coerceCell rr.contacted } : Rec)) ∘ reparseRow) r = id r := by
    intro r hr
    have hf := hfok r hr
    have hl := hlok r hr
    have hfi := hfiok r hr
    rcases r with ⟨rf, rl, rfi2, b1, b2, b3, b4⟩
    simp only [Function.comp, reparseRow, id]
    simp only at hf hl hfi
    rw [toNA_getD hf, toNA_getD hl, toNA_getD hfi]
    simp [coerceCell_roundtrip]
  rw [List.map_congr_left hpt, List.map_id]

/-- C8 witness: the amended round trip on a concrete table with
nonempty, non-numeric, non-boolean text cells and mixed flags. -/
theorem csv_roundtrip_amended_witness :
    Option.map ensure_schema (parseCsv (write_state_csv (ensure_schema
      (toRaw [mkRec (some s_y) (some s_yes) (some (lw [2, 21])) true false true false]))))
    = some (ensure_schema
        (toRaw [mkRec (some s_y) (some s_yes) (some (lw [2, 21])) true false true false])) :=
  csv_roundtrip_amended
    (toRaw [mkRec (some s_y) (some s_yes) (some (lw [2, 21])) true false true false])
    (by decide)
